import Mathlib

/-!
Verification of the reaction-network energy evaluator of `pymkmkit`
(`src/pymkmkit/network_reader.py`).

The embedding models Python floats by exact rationals (ℚ), raised
exceptions by `Except String`, and YAML-derived loosely-typed scalar
values (stoichiometry, normalization, path factor) by an inductive
`YVal` that either carries a numeric value or is a non-numeric value
on which Python's `float(...)` would raise.
-/

namespace Pymkmkit

attribute [local semireducible] Rat.mul Rat.add Rat.sub Rat.inv Rat.ofScientific

deriving instance DecidableEq for Except

/-- The `EV_PER_CM1` constant, `network_reader.py` line 8. -/
def EV_PER_CM1 : ℚ := 1.239841984e-4

/-- ZPE from a frequency list, `_read_state_data` line 86:
`zpe_energy = 0.5 * sum(frequencies_cm1) * EV_PER_CM1`. -/
def zpe_from_frequencies (freqs : List ℚ) : ℚ :=
  0.5 * freqs.sum * EV_PER_CM1

/-- A loaded physical state (`State` dataclass, lines 11-17).
The resolved file path carries no energetic information and is kept as a
plain string. -/
structure State where
  name : String
  file : String := ""
  electronic_energy : ℚ
  zpe_energy : ℚ
  paired_modes_averaged : Bool
deriving DecidableEq

/-- A YAML scalar as seen by the evaluator: either a numeric value
(Python `float(x)` succeeds and yields `q`) or a non-numeric value with
string rendering `r` (Python `float(x)` raises). -/
inductive YVal where
  | num (q : ℚ)
  | nonnum (r : String)
deriving DecidableEq

/-- Python `float(x)`: `some` iff the value parses as a number. -/
def YVal.toFloat? : YVal → Option ℚ
  | .num q => some q
  | .nonnum _ => none

/-- Rendering of a `YVal` inside an f-string error message.  Error
messages only ever render non-numeric values (numeric ones never reach
the error branch), so the numeric branch's rendering is irrelevant. -/
def YVal.render : YVal → String
  | .num q => toString q.num
  | .nonnum r => r

/-- A term of a `ts`/`is`/`fs` list (`{name, stoichiometry}` dict):
`term.get("name")` may be absent, `term.get("stoichiometry", 1)`
defaults to 1 when absent (`none`). -/
structure Term where
  name : Option String
  stoichiometry : Option YVal := none
deriving DecidableEq

/-- Python `f"{x}"` of an optional string, `None` rendering as "None". -/
def optNameStr : Option String → String
  | none => "None"
  | some s => s

/-- Dictionary lookup `states[name]` where `name` may be Python `None`
(never a key of the state map). -/
def findState (states : List (String × State)) (name : Option String) : Option State :=
  name.bind fun nm => states.lookup nm

/-! ### A model of Python `%g` formatting (`f"{x:g}"`)

The source interleaves numeric aggregation with human-readable equation
strings built with `f"{value:g}"`.  `%g` formats to at most 6
significant digits, strips trailing zeros, and switches to scientific
notation when the decimal exponent is below -4 or at least 6.  Rounding
is round-half-to-even.  We model this exactly over ℚ. -/

/-- Round to the nearest integer, ties to even. -/
def roundHalfEven (q : ℚ) : ℤ :=
  let n := Rat.floor q
  let frac := q - (n : ℚ)
  if frac < 1 / 2 then n
  else if 1 / 2 < frac then n + 1
  else if n % 2 = 0 then n else n + 1

/-- Number of decimal digits of `n` minus one; equals `⌊log10 n⌋` for
`n ≥ 1`. -/
def natLog10 (n : ℕ) : ℕ := (Nat.toDigits 10 n).length - 1

/-- Ten to the power `k` in ℚ for a natural exponent. -/
def qpow10n : ℕ → ℚ
  | 0 => 1
  | n + 1 => 10 * qpow10n n

/-- Ten to the power `k` in ℚ for an integer exponent. -/
def qpow10 (k : ℤ) : ℚ :=
  if 0 ≤ k then qpow10n k.toNat else 1 / qpow10n (-k).toNat

/-- Floor of `log10 q` for positive `q` (junk value elsewhere). -/
def floorLog10 (q : ℚ) : ℤ :=
  if 1 ≤ q then (natLog10 (Rat.floor q).toNat : ℤ)
  else
    let r := 1 / q
    let fl := natLog10 (Rat.floor r).toNat
    if r = qpow10n fl then -(fl : ℤ) else -((fl : ℤ) + 1)

/-- Round a positive rational to 6 significant digits: returns the
six-digit mantissa (in `[100000, 999999]`) and the decimal exponent of
the leading digit. -/
def sixSigDigits (q : ℚ) : ℕ × ℤ :=
  let e := floorLog10 q
  let m := roundHalfEven (q * qpow10 (5 - e))
  if 1000000 ≤ m then (100000, e + 1) else (m.toNat, e)

/-- Drop trailing `0` digits. -/
def stripZeros (ds : List Char) : List Char :=
  (ds.reverse.dropWhile (fun c => c = '0')).reverse

/-- Exponent rendered with at least two digits, as Python does. -/
def twoDigitExp (n : ℕ) : String :=
  if n < 10 then "0" ++ toString n else toString n

/-- Rendering of a positive rational in `%g` format. -/
def fmtGpos (q : ℚ) : String :=
  let me := sixSigDigits q
  let e := me.2
  let ds := stripZeros (Nat.toDigits 10 me.1)
  if e < -4 ∨ 6 ≤ e then
    let mant :=
      match ds with
      | [] => "0"
      | [d] => String.mk [d]
      | d :: rest => String.mk [d] ++ "." ++ String.mk rest
    let sgn := if e < 0 then "-" else "+"
    mant ++ "e" ++ sgn ++ twoDigitExp e.natAbs
  else if 0 ≤ e then
    let t := ds.length
    let ip := e.toNat + 1
    if t ≤ ip then String.mk ds ++ String.mk (List.replicate (ip - t) '0')
    else String.mk (ds.take ip) ++ "." ++ String.mk (ds.drop ip)
  else
    "0." ++ String.mk (List.replicate (e.natAbs - 1) '0') ++ String.mk ds

/-- Python `f"{q:g}"` over the exact rational model. -/
def fmtG (q : ℚ) : String :=
  if q = 0 then "0"
  else if q < 0 then "-" ++ fmtGpos (-q)
  else fmtGpos q

/-! ### Energy/ZPE aggregation (`_sum_energy`, lines 116-138, and
`_sum_zpe`, lines 141-173) -/

/-- The loop of `_sum_energy` (lines 120-137): per term, check the name
against the state map, parse the stoichiometry (default 1), accumulate
`stoich * electronic_energy` and the piece `f"{stoich:g}*E({name})"`.
Returns the total and the ordered piece list. -/
def sum_energy_terms (states : List (String × State)) :
    List Term → Except String (ℚ × List String)
  | [] => .ok (0, [])
  | t :: rest =>
    match t.name with
    | none => .error ("Unknown state 'None' referenced in network step")
    | some nm =>
      match states.lookup nm with
      | none => .error ("Unknown state '" ++ nm ++ "' referenced in network step")
      | some st =>
        let stoich := t.stoichiometry.getD (YVal.num 1)
        match stoich.toFloat? with
        | none =>
          .error ("Invalid stoichiometry for state '" ++ nm ++ "': " ++ stoich.render)
        | some sv =>
          match sum_energy_terms states rest with
          | .error e => .error e
          | .ok (tot, pieces) =>
            .ok (sv * st.electronic_energy + tot,
                 (fmtG sv ++ "*E(" ++ nm ++ ")") :: pieces)

/-- Function `_sum_energy` (lines 116-138): `(0.0, "0")` on an empty list, else
the accumulated total with pieces joined by `" + "`. -/
def sum_energy (terms : List Term) (states : List (String × State)) :
    Except String (ℚ × String) :=
  match terms with
  | [] => .ok (0, "0")
  | _ :: _ =>
    match sum_energy_terms states terms with
    | .error e => .error e
    | .ok (tot, pieces) => .ok (tot, String.intercalate " + " pieces)

/-- The loop of `_sum_zpe` (lines 149-172): as `_sum_energy`, but the
per-term value is `stoich * zpe_energy`, divided by the normalization
value when the state's `paired_modes_averaged` is false; the piece is
`f"{stoich:g}*ZPE({name})"` when paired, else
`f"({stoich:g}*ZPE({name})/{normalization:g})"`. -/
def sum_zpe_terms (states : List (String × State)) (nv : ℚ) :
    List Term → Except String (ℚ × List String)
  | [] => .ok (0, [])
  | t :: rest =>
    match t.name with
    | none => .error ("Unknown state 'None' referenced in network step")
    | some nm =>
      match states.lookup nm with
      | none => .error ("Unknown state '" ++ nm ++ "' referenced in network step")
      | some st =>
        let stoich := t.stoichiometry.getD (YVal.num 1)
        match stoich.toFloat? with
        | none =>
          .error ("Invalid stoichiometry for state '" ++ nm ++ "': " ++ stoich.render)
        | some sv =>
          let contribution :=
            if st.paired_modes_averaged then sv * st.zpe_energy
            else sv * st.zpe_energy / nv
          let piece :=
            if st.paired_modes_averaged then
              fmtG sv ++ "*ZPE(" ++ nm ++ ")"
            else
              "(" ++ fmtG sv ++ "*ZPE(" ++ nm ++ ")/" ++ fmtG nv ++ ")"
          match sum_zpe_terms states nv rest with
          | .error e => .error e
          | .ok (tot, pieces) => .ok (contribution + tot, piece :: pieces)

/-- Function `_sum_zpe` (lines 141-173). -/
def sum_zpe (terms : List Term) (states : List (String × State)) (nv : ℚ) :
    Except String (ℚ × String) :=
  match terms with
  | [] => .ok (0, "0")
  | _ :: _ =>
    match sum_zpe_terms states nv terms with
    | .error e => .error e
    | .ok (tot, pieces) => .ok (tot, String.intercalate " + " pieces)

/-! ### Step evaluation (`_compute_barrier` lines 176-210,
`_compute_adsorption_heat` lines 213-247, `read_network` loop body
lines 259-317) -/

/-- One direction block of a `surf` step (`forward`/`backward` dict):
`ts`/`is` term lists default to `[]` when the key is absent
(`direction_data.get("ts", [])`), `normalization` is `none` when the
key is absent (`.get("normalization", 1)` defaults it to 1). -/
structure DirectionData where
  ts : List Term := []
  is_ : List Term := []
  normalization : Option YVal := none
deriving DecidableEq

/-- The empty dict `{}` used for an absent direction block
(`step.get("forward", {})`). -/
def emptyDirection : DirectionData := {}

/-- Normalization handling shared by `_compute_barrier` (lines 183-190)
and `_compute_adsorption_heat` (lines 220-227): default 1 when absent,
`float(...)` must succeed, and zero is rejected. -/
def parseNormalization (v : Option YVal) : Except String ℚ :=
  let normalization := v.getD (YVal.num 1)
  match normalization.toFloat? with
  | none => .error ("Invalid normalization value: " ++ normalization.render)
  | some nv =>
    if nv = 0 then .error "Normalization cannot be zero"
    else .ok nv

/-- Function `_compute_barrier` (lines 176-210): returns
`(electronic_barrier, zpe_correction, total_barrier, full_equation)`. -/
def compute_barrier (d : DirectionData) (states : List (String × State)) :
    Except String (ℚ × ℚ × ℚ × String) :=
  match sum_energy d.ts states with
  | .error e => .error e
  | .ok (tsEnergy, tsEnergyExpr) =>
    match sum_energy d.is_ states with
    | .error e => .error e
    | .ok (isEnergy, isEnergyExpr) =>
      match parseNormalization d.normalization with
      | .error e => .error e
      | .ok nv =>
        let electronicBarrier := (tsEnergy - isEnergy) / nv
        let electronicEquation :=
          "(" ++ tsEnergyExpr ++ " - (" ++ isEnergyExpr ++ ")) / " ++ fmtG nv
        match sum_zpe d.ts states nv with
        | .error e => .error e
        | .ok (tsZpe, tsZpeExpr) =>
          match sum_zpe d.is_ states nv with
          | .error e => .error e
          | .ok (isZpe, isZpeExpr) =>
            let zpeCorrection := tsZpe - isZpe
            let zpeEquation := "(" ++ tsZpeExpr ++ " - (" ++ isZpeExpr ++ "))"
            let totalBarrier := electronicBarrier + zpeCorrection
            let fullEquation :=
              "E_el: " ++ electronicEquation ++ "; ZPE corr: " ++ zpeEquation ++
              "; Total: (" ++ electronicEquation ++ ") + (" ++ zpeEquation ++ ")"
            .ok (electronicBarrier, zpeCorrection, totalBarrier, fullEquation)

/-- An elementary-step definition dict as consumed by the `read_network`
loop: the `surf` fields (`forward`, `backward` sub-dicts, `none` when
absent) and the `ads` fields (`fs`, `is`, `normalization` at the top
level of the step dict). -/
structure StepData where
  name : Option String := none
  stepType : Option String := none
  reaction : Option String := none
  forward : Option DirectionData := none
  backward : Option DirectionData := none
  fs : List Term := []
  is_ : List Term := []
  normalization : Option YVal := none
deriving DecidableEq

/-- Function `_compute_adsorption_heat` (lines 213-247): the barrier formula with
the step-level `fs` list in place of `ts` and the step-level `is` list
kept, returning `(electronic_heat, zpe_correction, total_heat,
full_equation)`. -/
def compute_adsorption_heat (step : StepData) (states : List (String × State)) :
    Except String (ℚ × ℚ × ℚ × String) :=
  match sum_energy step.fs states with
  | .error e => .error e
  | .ok (fsEnergy, fsEnergyExpr) =>
    match sum_energy step.is_ states with
    | .error e => .error e
    | .ok (isEnergy, isEnergyExpr) =>
      match parseNormalization step.normalization with
      | .error e => .error e
      | .ok nv =>
        let electronicHeat := (fsEnergy - isEnergy) / nv
        let electronicEquation :=
          "(" ++ fsEnergyExpr ++ " - (" ++ isEnergyExpr ++ ")) / " ++ fmtG nv
        match sum_zpe step.fs states nv with
        | .error e => .error e
        | .ok (fsZpe, fsZpeExpr) =>
          match sum_zpe step.is_ states nv with
          | .error e => .error e
          | .ok (isZpe, isZpeExpr) =>
            let zpeCorrection := fsZpe - isZpe
            let zpeEquation := "(" ++ fsZpeExpr ++ " - (" ++ isZpeExpr ++ "))"
            let totalHeat := electronicHeat + zpeCorrection
            let fullEquation :=
              "E_el: " ++ electronicEquation ++ "; ZPE corr: " ++ zpeEquation ++
              "; Total: (" ++ electronicEquation ++ ") + (" ++ zpeEquation ++ ")"
            .ok (electronicHeat, zpeCorrection, totalHeat, fullEquation)

/-- The `ElementaryStep` dataclass (lines 20-35). -/
structure ElementaryStep where
  name : String
  step_type : String
  reaction : String
  forward_equation : String
  reverse_equation : String
  forward_barrier_electronic : ℚ
  reverse_barrier_electronic : ℚ
  forward_zpe_correction : ℚ
  reverse_zpe_correction : ℚ
  forward_total_barrier : ℚ
  reverse_total_barrier : ℚ
  reaction_heat_electronic : ℚ
  reaction_heat_zpe_correction : ℚ
  reaction_heat_total : ℚ
deriving DecidableEq

/-- The body of the `read_network` step loop (lines 259-317): resolve
the step type (default `surf`, anything else is rejected), evaluate the
two barrier directions (`surf`) or the single adsorption direction
(`ads`), and assemble the `ElementaryStep` record, with reverse fields
zeroed and the reverse equation marked `"N/A"` for `ads` steps and the
reaction heats taken as forward minus reverse (`surf`) or the forward
value directly (`ads`). -/
def process_step (step : StepData) (states : List (String × State)) :
    Except String ElementaryStep :=
  let stepType := step.stepType.getD "surf"
  if stepType = "ads" then
    match compute_adsorption_heat step states with
    | .error e => .error e
    | .ok (forwardEl, forwardZpe, forwardTotal, forwardEq) =>
      .ok
        { name := step.name.getD "unnamed_step"
          step_type := stepType
          reaction := step.reaction.getD ""
          forward_equation := forwardEq
          reverse_equation := "N/A"
          forward_barrier_electronic := forwardEl
          reverse_barrier_electronic := 0
          forward_zpe_correction := forwardZpe
          reverse_zpe_correction := 0
          forward_total_barrier := forwardTotal
          reverse_total_barrier := 0
          reaction_heat_electronic := forwardEl
          reaction_heat_zpe_correction := forwardZpe
          reaction_heat_total := forwardTotal }
  else if stepType = "surf" then
    match compute_barrier (step.forward.getD emptyDirection) states with
    | .error e => .error e
    | .ok (forwardEl, forwardZpe, forwardTotal, forwardEq) =>
      match compute_barrier (step.backward.getD emptyDirection) states with
      | .error e => .error e
      | .ok (reverseEl, reverseZpe, reverseTotal, reverseEq) =>
        .ok
          { name := step.name.getD "unnamed_step"
            step_type := stepType
            reaction := step.reaction.getD ""
            forward_equation := forwardEq
            reverse_equation := reverseEq
            forward_barrier_electronic := forwardEl
            reverse_barrier_electronic := reverseEl
            forward_zpe_correction := forwardZpe
            reverse_zpe_correction := reverseZpe
            forward_total_barrier := forwardTotal
            reverse_total_barrier := reverseTotal
            reaction_heat_electronic := forwardEl - reverseEl
            reaction_heat_zpe_correction := forwardZpe - reverseZpe
            reaction_heat_total := forwardTotal - reverseTotal }
  else
    .error ("Invalid network step type '" ++ stepType ++ "'. Expected 'surf' or 'ads'.")

/-! ### Path evaluation (`evaluate_paths`, lines 322-360) -/

/-- The `ReactionPath` dataclass (lines 38-41). -/
structure ReactionPath where
  name : String
  total_reaction_energy : ℚ
deriving DecidableEq

/-- One entry of a path's `steps` list (`{name, factor, label}` dict):
`name` may be absent, `factor` defaults to 1 when absent. -/
structure PathStep where
  name : Option String := none
  factor : Option YVal := none
  label : Option String := none
deriving DecidableEq

/-- One iteration of the `evaluate_paths` inner loop (lines 337-351):
look the step up by name, parse the factor (default 1), and produce the
contribution `factor * reaction_heat_total`. -/
def path_step_contrib (stepsByName : List (String × ElementaryStep))
    (pathName : String) (ps : PathStep) : Except String ℚ :=
  match ps.name with
  | none =>
    .error ("Unknown step 'None' referenced in path '" ++ pathName ++ "'")
  | some nm =>
    match stepsByName.lookup nm with
    | none =>
      .error ("Unknown step '" ++ nm ++ "' referenced in path '" ++ pathName ++ "'")
    | some es =>
      let factor := ps.factor.getD (YVal.num 1)
      match factor.toFloat? with
      | none =>
        .error ("Invalid factor for step '" ++ nm ++ "' in path '" ++ pathName ++
                "': " ++ factor.render)
      | some fv => .ok (fv * es.reaction_heat_total)

/-- The accumulation `total_reaction_energy += factor_value * step_heat`
over a path's `steps` list (lines 336-351). -/
def evaluate_path_steps (stepsByName : List (String × ElementaryStep))
    (pathName : String) : List PathStep → ℚ → Except String ℚ
  | [], total => .ok total
  | ps :: rest, total =>
    match path_step_contrib stepsByName pathName ps with
    | .error e => .error e
    | .ok c => evaluate_path_steps stepsByName pathName rest (total + c)

/-- One iteration of the `evaluate_paths` outer loop (lines 331-358):
the `ReactionPath` produced for a named path. -/
def evaluate_path (stepsByName : List (String × ElementaryStep))
    (pathName : String) (entries : List PathStep) : Except String ReactionPath :=
  match evaluate_path_steps stepsByName pathName entries 0 with
  | .error e => .error e
  | .ok tot => .ok ⟨pathName, tot⟩

/-! ### State-file resolution (`_resolve_state_file`, lines 44-57) -/

/-- Position of the last `.` in a character list, if any. -/
def lastDotPos : List Char → Option ℕ
  | [] => none
  | c :: rest =>
    match lastDotPos rest with
    | some i => some (i + 1)
    | none => if c = '.' then some 0 else none

/-- Drop the extension of a single path component, `pathlib` style: the
suffix runs from the last `.`, except that a dot at the very start of
the component (hidden files like `.bashrc`) is not a suffix. -/
def stripExtension (component : List Char) : List Char :=
  match lastDotPos component with
  | none => component
  | some i => if i = 0 then component else component.take i

/-- Split a character list at each `/`. -/
def splitSlash : List Char → List (List Char)
  | [] => [[]]
  | c :: rest =>
    match splitSlash rest with
    | [] => if c = '/' then [[], []] else [[c]]
    | comp :: comps =>
      if c = '/' then [] :: comp :: comps else (c :: comp) :: comps

/-- Model of `pathlib.Path.with_suffix`: replace (or add) the extension of the
final path component. -/
def withSuffix (p : String) (suffix : String) : String :=
  match (splitSlash p.toList).reverse with
  | [] => p ++ suffix
  | last :: restRev =>
    String.mk
      (List.intercalate ['/']
        ((stripExtension last ++ suffix.toList) :: restRev).reverse)

/-- Function `_resolve_state_file` (lines 44-57) over an abstract filesystem
`fsys : String → Bool` telling which paths exist: try the joined path
literally, then with suffix `.yaml`, then `.yml`, returning the first
existing candidate, else a not-found error naming the reference. -/
def resolve_state_file (fsys : String → Bool) (baseDir stateFile : String) :
    Except String String :=
  let path := baseDir ++ "/" ++ stateFile
  if fsys path then .ok path
  else
    let yamlPath := withSuffix path ".yaml"
    if fsys yamlPath then .ok yamlPath
    else
      let ymlPath := withSuffix path ".yml"
      if fsys ymlPath then .ok ymlPath
      else .error ("State file not found: " ++ stateFile)

/-! ### Helper views used by the claim statements -/

/-- The numeric ZPE contribution of one term as `_sum_zpe` computes it:
`stoichiometry * zpe_energy`, divided by the normalization value
exactly when the state is not `paired_modes_averaged` (zero on the
error paths, which never arise under a successful evaluation). -/
def zpe_contribution (states : List (String × State)) (nv : ℚ) (t : Term) : ℚ :=
  match findState states t.name with
  | none => 0
  | some st =>
    match (t.stoichiometry.getD (YVal.num 1)).toFloat? with
    | none => 0
    | some sv =>
      if st.paired_modes_averaged then sv * st.zpe_energy
      else sv * st.zpe_energy / nv

/-- The symbolic piece of one term as `_sum_zpe` renders it:
`coeff*ZPE(name)` for a paired state, `(coeff*ZPE(name)/normalization)`
otherwise. -/
def zpe_piece (states : List (String × State)) (nv : ℚ) (t : Term) : String :=
  match findState states t.name with
  | none => ""
  | some st =>
    let nm := optNameStr t.name
    match (t.stoichiometry.getD (YVal.num 1)).toFloat? with
    | none => ""
    | some sv =>
      if st.paired_modes_averaged then
        fmtG sv ++ "*ZPE(" ++ nm ++ ")"
      else
        "(" ++ fmtG sv ++ "*ZPE(" ++ nm ++ ")/" ++ fmtG nv ++ ")"

/-- The contribution of one path entry as a pure value:
`factor * reaction_heat_total` of the referenced step, with the factor
defaulting to 1 when absent (zero on the error paths, which never arise
under a successful evaluation). -/
def path_term_value (stepsByName : List (String × ElementaryStep)) (ps : PathStep) : ℚ :=
  match ps.name.bind (fun nm => stepsByName.lookup nm) with
  | none => 0
  | some es =>
    match (ps.factor.getD (YVal.num 1)).toFloat? with
    | none => 0
    | some fv => fv * es.reaction_heat_total

/-- A term is processed without error by the aggregation loops: its name
is a known state and its stoichiometry parses as a number. -/
def termOk (states : List (String × State)) (t : Term) : Prop :=
  (findState states t.name).isSome = true ∧
  ((t.stoichiometry.getD (YVal.num 1)).toFloat?).isSome = true

instance (states : List (String × State)) (t : Term) : Decidable (termOk states t) :=
  instDecidableAnd

/-- Rounding to six decimal places (used to state the numerical
fixture claims). -/
def round6 (q : ℚ) : ℤ := Rat.floor (q * 1000000 + 1 / 2)

/-- Placeholder record used by `extractStep` on the error branch. -/
def dummyStep : ElementaryStep :=
  { name := "", step_type := "", reaction := "", forward_equation := ""
    reverse_equation := "", forward_barrier_electronic := 0
    reverse_barrier_electronic := 0, forward_zpe_correction := 0
    reverse_zpe_correction := 0, forward_total_barrier := 0
    reverse_total_barrier := 0, reaction_heat_electronic := 0
    reaction_heat_zpe_correction := 0, reaction_heat_total := 0 }

/-- The step record of a successful evaluation (placeholder on the
error branch); used to build closed witness statements. -/
def extractStep (r : Except String ElementaryStep) : ElementaryStep :=
  match r with
  | .ok es => es
  | .error _ => dummyStep

/-- The pair of a successful aggregation (placeholder on the error
branch); used to build closed witness statements. -/
def extractPair (r : Except String (ℚ × String)) : ℚ × String :=
  match r with
  | .ok v => v
  | .error _ => (0, "")

/-! ### Concrete fixtures (the reference scenario of the spec and small
inputs for the witness statements) -/

/-- State `IS` of the reference scenario: electronic energy -1.0 eV, one
mode at 500 cm⁻¹, paired. -/
def stateIS : State :=
  { name := "IS", electronic_energy := -1
    zpe_energy := zpe_from_frequencies [500], paired_modes_averaged := true }

/-- State `TS` of the reference scenario: electronic energy 0.0 eV, one
mode at 1000 cm⁻¹, paired. -/
def stateTS : State :=
  { name := "TS", electronic_energy := 0
    zpe_energy := zpe_from_frequencies [1000], paired_modes_averaged := true }

/-- State `FS` of the reference scenario: electronic energy -2.0 eV, one
mode at 200 cm⁻¹, paired. -/
def stateFS : State :=
  { name := "FS", electronic_energy := -2
    zpe_energy := zpe_from_frequencies [200], paired_modes_averaged := true }

/-- The loaded state map of the reference scenario. -/
def statesC3 : List (String × State) :=
  [("IS", stateIS), ("TS", stateTS), ("FS", stateFS)]

/-- The reference `surf` step: forward `{ts: TS, is: IS, normalization: 1}`,
backward `{ts: TS, is: FS, normalization: 2}`. -/
def stepC3 : StepData :=
  { name := some "r1", stepType := some "surf"
    forward := some
      { ts := [{ name := some "TS" }], is_ := [{ name := some "IS" }]
        normalization := some (.num 1) }
    backward := some
      { ts := [{ name := some "TS" }], is_ := [{ name := some "FS" }]
        normalization := some (.num 2) } }

/-- The step record computed for the reference `surf` step. -/
def esC3 : ElementaryStep := extractStep (process_step stepC3 statesC3)

/-- An unpaired state used to exercise the ZPE normalization branch:
electronic energy -0.5 eV, one mode at 400 cm⁻¹, unpaired. -/
def stateUN : State :=
  { name := "UN", electronic_energy := -0.5
    zpe_energy := zpe_from_frequencies [400], paired_modes_averaged := false }

/-- A state map holding one paired and one unpaired state. -/
def statesMix : List (String × State) :=
  [("TS", stateTS), ("UN", stateUN)]

/-- A term list mixing a paired and an unpaired state reference. -/
def termsMix : List Term :=
  [{ name := some "TS", stoichiometry := some (.num 2) }, { name := some "UN" }]

/-- The adsorption scenario states: `GAS` (-0.2 eV, 100 cm⁻¹, paired),
`EMPTY` (-1.0 eV, 200 cm⁻¹, paired), `ADS` (-1.5 eV, 600 cm⁻¹, paired). -/
def statesAds : List (String × State) :=
  [("GAS",
    { name := "GAS", electronic_energy := -0.2
      zpe_energy := zpe_from_frequencies [100], paired_modes_averaged := true }),
   ("EMPTY",
    { name := "EMPTY", electronic_energy := -1
      zpe_energy := zpe_from_frequencies [200], paired_modes_averaged := true }),
   ("ADS",
    { name := "ADS", electronic_energy := -1.5
      zpe_energy := zpe_from_frequencies [600], paired_modes_averaged := true })]

/-- The adsorption step: `GAS + EMPTY → ADS`, normalization 1. -/
def stepAds : StepData :=
  { name := some "a1", stepType := some "ads"
    fs := [{ name := some "ADS" }]
    is_ := [{ name := some "GAS" }, { name := some "EMPTY" }]
    normalization := some (.num 1) }

/-- The step record computed for the adsorption step. -/
def esAds : ElementaryStep := extractStep (process_step stepAds statesAds)

/-! ### Shared helper lemmas -/

/-- Function `_compute_adsorption_heat` is the barrier formula applied to a
direction whose `ts` slot holds the step's `fs` terms and whose `is`
slot and normalization are the step's own. -/
theorem compute_adsorption_heat_eq_barrier (step : StepData)
    (states : List (String × State)) :
    compute_adsorption_heat step states =
      compute_barrier
        { ts := step.fs, is_ := step.is_, normalization := step.normalization }
        states := rfl

/-- Decomposition of the `_sum_zpe` loop: a successful run returns the
sum of the per-term contributions and the ordered per-term piece
list. -/
theorem sum_zpe_terms_spec (states : List (String × State)) (nv : ℚ) :
    ∀ terms tot pieces,
      sum_zpe_terms states nv terms = Except.ok (tot, pieces) →
      tot = (terms.map (zpe_contribution states nv)).sum ∧
      pieces = terms.map (zpe_piece states nv) := by
  intro terms
  induction terms with
  | nil =>
    intro tot pieces h
    simp only [sum_zpe_terms, Except.ok.injEq, Prod.mk.injEq] at h
    obtain ⟨h1, h2⟩ := h
    subst h1
    subst h2
    simp
  | cons t rest ih =>
    intro tot pieces h
    simp only [sum_zpe_terms] at h
    cases hn : t.name with
    | none =>
      simp only [hn] at h
      exact Except.noConfusion h
    | some nm =>
      simp only [hn] at h
      cases hl : List.lookup nm states with
      | none =>
        simp only [hl] at h
        exact Except.noConfusion h
      | some st =>
        simp only [hl] at h
        cases hf : (t.stoichiometry.getD (YVal.num 1)).toFloat? with
        | none =>
          simp only [hf] at h
          exact Except.noConfusion h
        | some sv =>
          simp only [hf] at h
          cases hr : sum_zpe_terms states nv rest with
          | error e =>
            simp only [hr] at h
            exact Except.noConfusion h
          | ok pr =>
            obtain ⟨tot2, pieces2⟩ := pr
            simp only [hr, Except.ok.injEq, Prod.mk.injEq] at h
            obtain ⟨h1, h2⟩ := h
            obtain ⟨ht, hp⟩ := ih tot2 pieces2 hr
            subst h1
            subst h2
            subst ht
            subst hp
            constructor
            · simp only [List.map_cons, List.sum_cons]
              have hc : zpe_contribution states nv t =
                  if st.paired_modes_averaged then sv * st.zpe_energy
                  else sv * st.zpe_energy / nv := by
                simp [zpe_contribution, findState, hn, hl, hf]
              rw [hc]
            · simp only [List.map_cons]
              have hc : zpe_piece states nv t =
                  if st.paired_modes_averaged then
                    fmtG sv ++ "*ZPE(" ++ nm ++ ")"
                  else
                    "(" ++ fmtG sv ++ "*ZPE(" ++ nm ++ ")/" ++ fmtG nv ++ ")" := by
                simp [zpe_piece, findState, hn, hl, hf, optNameStr]
              rw [hc]

/-- If some term of the list references an unknown state, the
`_sum_energy` loop fails. -/
theorem sum_energy_terms_unknown_fails (states : List (String × State)) :
    ∀ terms : List Term, (∃ t ∈ terms, findState states t.name = none) →
      ∃ e, sum_energy_terms states terms = Except.error e := by
  intro terms
  induction terms with
  | nil =>
    intro h
    obtain ⟨t, ht, _⟩ := h
    simp at ht
  | cons t rest ih =>
    intro h
    obtain ⟨t0, ht0, hf0⟩ := h
    cases hn : t.name with
    | none =>
      exact ⟨"Unknown state 'None' referenced in network step",
        by simp [sum_energy_terms, hn]⟩
    | some nm =>
      cases hl : List.lookup nm states with
      | none =>
        exact ⟨"Unknown state '" ++ nm ++ "' referenced in network step",
          by simp [sum_energy_terms, hn, hl]⟩
      | some st =>
        cases hs : (t.stoichiometry.getD (YVal.num 1)).toFloat? with
        | none =>
          exact ⟨"Invalid stoichiometry for state '" ++ nm ++ "': " ++
              (t.stoichiometry.getD (YVal.num 1)).render,
            by simp [sum_energy_terms, hn, hl, hs]⟩
        | some sv =>
          have ht0r : t0 ∈ rest := by
            rcases List.mem_cons.mp ht0 with heq | hm
            · subst heq
              rw [findState, hn] at hf0
              simp [hl] at hf0
            · exact hm
          obtain ⟨e, he⟩ := ih ⟨t0, ht0r, hf0⟩
          exact ⟨e, by simp [sum_energy_terms, hn, hl, hs, he]⟩

/-- If some term of the list references an unknown state, the
`_sum_zpe` loop fails. -/
theorem sum_zpe_terms_unknown_fails (states : List (String × State)) (nv : ℚ) :
    ∀ terms : List Term, (∃ t ∈ terms, findState states t.name = none) →
      ∃ e, sum_zpe_terms states nv terms = Except.error e := by
  intro terms
  induction terms with
  | nil =>
    intro h
    obtain ⟨t, ht, _⟩ := h
    simp at ht
  | cons t rest ih =>
    intro h
    obtain ⟨t0, ht0, hf0⟩ := h
    cases hn : t.name with
    | none =>
      exact ⟨"Unknown state 'None' referenced in network step",
        by simp [sum_zpe_terms, hn]⟩
    | some nm =>
      cases hl : List.lookup nm states with
      | none =>
        exact ⟨"Unknown state '" ++ nm ++ "' referenced in network step",
          by simp [sum_zpe_terms, hn, hl]⟩
      | some st =>
        cases hs : (t.stoichiometry.getD (YVal.num 1)).toFloat? with
        | none =>
          exact ⟨"Invalid stoichiometry for state '" ++ nm ++ "': " ++
              (t.stoichiometry.getD (YVal.num 1)).render,
            by simp [sum_zpe_terms, hn, hl, hs]⟩
        | some sv =>
          have ht0r : t0 ∈ rest := by
            rcases List.mem_cons.mp ht0 with heq | hm
            · subst heq
              rw [findState, hn] at hf0
              simp [hl] at hf0
            · exact hm
          obtain ⟨e, he⟩ := ih ⟨t0, ht0r, hf0⟩
          exact ⟨e, by simp [sum_zpe_terms, hn, hl, hs, he]⟩

/-- When every term before `t` is processed without error and `t`
references an unknown state, the `_sum_energy` loop fails with the
unknown-state message naming `t`'s state. -/
theorem sum_energy_terms_first_unknown (states : List (String × State)) :
    ∀ (pre : List Term) (t : Term) (post : List Term),
      (∀ u ∈ pre, termOk states u) → findState states t.name = none →
      sum_energy_terms states (pre ++ t :: post) =
        Except.error ("Unknown state '" ++ optNameStr t.name ++
          "' referenced in network step") := by
  intro pre
  induction pre with
  | nil =>
    intro t post _ hf
    cases hn : t.name with
    | none =>
      simp [sum_energy_terms, hn, optNameStr]
    | some nm =>
      rw [findState, hn] at hf
      simp only [Option.some_bind] at hf
      simp [sum_energy_terms, hn, hf, optNameStr]
  | cons u pre2 ih =>
    intro t post hall hf
    obtain ⟨hu1, hu2⟩ := hall u (List.mem_cons_self u pre2)
    rw [Option.isSome_iff_exists] at hu1 hu2
    obtain ⟨stu, hstu⟩ := hu1
    obtain ⟨svu, hsvu⟩ := hu2
    cases hnu : u.name with
    | none => rw [findState, hnu] at hstu; simp at hstu
    | some nmu =>
      rw [findState, hnu] at hstu
      simp only [Option.some_bind] at hstu
      have hrec := ih t post (fun x hx => hall x (List.mem_cons_of_mem u hx)) hf
      simp [sum_energy_terms, hnu, hstu, hsvu, hrec]

/-- When every term before `t` is processed without error and `t`
references an unknown state, the `_sum_zpe` loop fails with the
unknown-state message naming `t`'s state. -/
theorem sum_zpe_terms_first_unknown (states : List (String × State)) (nv : ℚ) :
    ∀ (pre : List Term) (t : Term) (post : List Term),
      (∀ u ∈ pre, termOk states u) → findState states t.name = none →
      sum_zpe_terms states nv (pre ++ t :: post) =
        Except.error ("Unknown state '" ++ optNameStr t.name ++
          "' referenced in network step") := by
  intro pre
  induction pre with
  | nil =>
    intro t post _ hf
    cases hn : t.name with
    | none =>
      simp [sum_zpe_terms, hn, optNameStr]
    | some nm =>
      rw [findState, hn] at hf
      simp only [Option.some_bind] at hf
      simp [sum_zpe_terms, hn, hf, optNameStr]
  | cons u pre2 ih =>
    intro t post hall hf
    obtain ⟨hu1, hu2⟩ := hall u (List.mem_cons_self u pre2)
    rw [Option.isSome_iff_exists] at hu1 hu2
    obtain ⟨stu, hstu⟩ := hu1
    obtain ⟨svu, hsvu⟩ := hu2
    cases hnu : u.name with
    | none => rw [findState, hnu] at hstu; simp at hstu
    | some nmu =>
      rw [findState, hnu] at hstu
      simp only [Option.some_bind] at hstu
      have hrec := ih t post (fun x hx => hall x (List.mem_cons_of_mem u hx)) hf
      simp [sum_zpe_terms, hnu, hstu, hsvu, hrec]

/-- A failing loop makes the wrapper fail with the same message. -/
theorem sum_energy_error_of_terms_error (terms : List Term)
    (states : List (String × State)) (e : String) (hne : terms ≠ [])
    (h : sum_energy_terms states terms = Except.error e) :
    sum_energy terms states = Except.error e := by
  cases terms with
  | nil => exact absurd rfl hne
  | cons t rest => simp [sum_energy, h]

/-- A failing loop makes the wrapper fail with the same message. -/
theorem sum_zpe_error_of_terms_error (terms : List Term)
    (states : List (String × State)) (nv : ℚ) (e : String) (hne : terms ≠ [])
    (h : sum_zpe_terms states nv terms = Except.error e) :
    sum_zpe terms states nv = Except.error e := by
  cases terms with
  | nil => exact absurd rfl hne
  | cons t rest => simp [sum_zpe, h]

/-- A successful path-step contribution equals the pure per-entry
value `factor * reaction_heat_total`. -/
theorem path_step_contrib_ok_val (m : List (String × ElementaryStep))
    (pn : String) (ps : PathStep) (q : ℚ)
    (h : path_step_contrib m pn ps = Except.ok q) :
    q = path_term_value m ps := by
  cases hn : ps.name with
  | none => simp [path_step_contrib, hn] at h
  | some nm =>
    cases hl : List.lookup nm m with
    | none => simp [path_step_contrib, hn, hl] at h
    | some es =>
      cases hf : (ps.factor.getD (YVal.num 1)).toFloat? with
      | none => simp [path_step_contrib, hn, hl, hf] at h
      | some fv =>
        simp only [path_step_contrib, hn, hl, hf, Except.ok.injEq] at h
        subst h
        simp [path_term_value, hn, hl, hf]

/-- A successful path accumulation returns the accumulator plus the
sum of the per-entry values. -/
theorem evaluate_path_steps_sum (m : List (String × ElementaryStep)) (pn : String) :
    ∀ (l : List PathStep) (acc t : ℚ),
      evaluate_path_steps m pn l acc = Except.ok t →
      t = acc + (l.map (path_term_value m)).sum := by
  intro l
  induction l with
  | nil =>
    intro acc t h
    simp only [evaluate_path_steps, Except.ok.injEq] at h
    subst h
    simp
  | cons ps rest ih =>
    intro acc t h
    simp only [evaluate_path_steps] at h
    cases hc : path_step_contrib m pn ps with
    | error e =>
      rw [hc] at h
      exact Except.noConfusion h
    | ok c =>
      rw [hc] at h
      rw [ih (acc + c) t h, List.map_cons, List.sum_cons,
        path_step_contrib_ok_val m pn ps c hc]
      ring

/-- When every entry's contribution succeeds, the accumulation
succeeds. -/
theorem evaluate_path_steps_ok_of_all (m : List (String × ElementaryStep))
    (pn : String) :
    ∀ l : List PathStep,
      (∀ ps ∈ l, ∃ q, path_step_contrib m pn ps = Except.ok q) →
      ∀ acc, ∃ t, evaluate_path_steps m pn l acc = Except.ok t := by
  intro l
  induction l with
  | nil =>
    intro _ acc
    exact ⟨acc, rfl⟩
  | cons ps rest ih =>
    intro hall acc
    obtain ⟨q, hq⟩ := hall ps (List.mem_cons_self ps rest)
    obtain ⟨t, ht⟩ := ih (fun x hx => hall x (List.mem_cons_of_mem ps hx)) (acc + q)
    exact ⟨t, by simp [evaluate_path_steps, hq, ht]⟩

/-- A successful accumulation means every entry's contribution
succeeded. -/
theorem evaluate_path_steps_all_ok (m : List (String × ElementaryStep))
    (pn : String) :
    ∀ (l : List PathStep) (acc t : ℚ),
      evaluate_path_steps m pn l acc = Except.ok t →
      ∀ ps ∈ l, ∃ q, path_step_contrib m pn ps = Except.ok q := by
  intro l
  induction l with
  | nil =>
    intro acc t _ ps hps
    simp at hps
  | cons p0 rest ih =>
    intro acc t h ps hps
    simp only [evaluate_path_steps] at h
    cases hc : path_step_contrib m pn p0 with
    | error e =>
      rw [hc] at h
      exact Except.noConfusion h
    | ok c =>
      rw [hc] at h
      rcases List.mem_cons.mp hps with heq | hm
      · subst heq
        exact ⟨c, hc⟩
      · exact ih (acc + c) t h ps hm

/-! ### Claim theorems -/

/-- C1: in a successful `_sum_zpe` run, the contribution of a term
referencing a state with `paired_modes_averaged = false` is
`(stoichiometry * zpe_energy) / normalization` with piece
`(coeff*ZPE(name)/normalization)`, and that of a term referencing a
state with `paired_modes_averaged = true` is
`stoichiometry * zpe_energy`, untouched by the normalization, with
piece `coeff*ZPE(name)`: the returned total is the sum of these
per-term contributions and the returned expression joins the matching
pieces. -/
theorem sum_zpe_normalization_rule (terms : List Term)
    (states : List (String × State)) (nv tot : ℚ) (expr : String)
    (h : sum_zpe terms states nv = Except.ok (tot, expr)) :
    tot = (terms.map (zpe_contribution states nv)).sum ∧
    expr = (if terms.isEmpty then "0"
            else String.intercalate " + " (terms.map (zpe_piece states nv))) := by
  cases terms with
  | nil =>
    simp only [sum_zpe, Except.ok.injEq, Prod.mk.injEq] at h
    obtain ⟨h1, h2⟩ := h
    subst h1
    subst h2
    simp
  | cons t rest =>
    simp only [sum_zpe] at h
    cases hr : sum_zpe_terms states nv (t :: rest) with
    | error e =>
      simp only [hr] at h
      exact Except.noConfusion h
    | ok pr =>
      obtain ⟨tot2, pieces2⟩ := pr
      simp only [hr, Except.ok.injEq, Prod.mk.injEq] at h
      obtain ⟨h1, h2⟩ := h
      obtain ⟨ht, hp⟩ := sum_zpe_terms_spec states nv (t :: rest) tot2 pieces2 hr
      subst h1
      subst h2
      exact ⟨ht, by simp [hp]⟩

/-- C1 witness: the mixed paired/unpaired fixture instantiates the
theorem. -/
theorem sum_zpe_normalization_rule_witness :
    (extractPair (sum_zpe termsMix statesMix 2)).1 =
      (termsMix.map (zpe_contribution statesMix 2)).sum ∧
    (extractPair (sum_zpe termsMix statesMix 2)).2 =
      (if termsMix.isEmpty then "0"
       else String.intercalate " + " (termsMix.map (zpe_piece statesMix 2))) :=
  sum_zpe_normalization_rule termsMix statesMix 2
    (extractPair (sum_zpe termsMix statesMix 2)).1
    (extractPair (sum_zpe termsMix statesMix 2)).2 rfl

/-- C8: for an empty term list, `_sum_energy` returns exactly
`(0.0, "0")`, and `_sum_zpe` returns exactly `(0.0, "0")` for any
normalization value. -/
theorem empty_terms_give_zero (states : List (String × State)) (nv : ℚ) :
    sum_energy [] states = Except.ok (0, "0") ∧
    sum_zpe [] states nv = Except.ok (0, "0") :=
  ⟨rfl, rfl⟩

/-- C3: on the reference network (states IS, TS, FS with energies
-1.0, 0.0, -2.0 eV, single paired modes at 500, 1000, 200 cm⁻¹, ZPE
computed as `0.5 × Σfreq × 1.239841984e-4`), the `surf` step with
forward `{ts: TS, is: IS, normalization: 1}` and backward
`{ts: TS, is: FS, normalization: 2}` evaluates successfully with a
forward total barrier of 1.030996 eV and a reverse total barrier of
1.049594 eV, both to six decimal places. -/
theorem reference_scenario_barriers :
    process_step stepC3 statesC3 = Except.ok esC3 ∧
    round6 esC3.forward_total_barrier = 1030996 ∧
    round6 esC3.reverse_total_barrier = 1049594 :=
  ⟨rfl, by decide, by decide⟩

/-- C2: a `surf` step that evaluates successfully has each reaction-heat
component equal to the difference of its own forward and reverse
values: electronic, ZPE correction, and total, independently. -/
theorem surf_reaction_heat_is_difference (step : StepData)
    (states : List (String × State)) (es : ElementaryStep)
    (hsurf : step.stepType.getD "surf" = "surf")
    (h : process_step step states = Except.ok es) :
    es.reaction_heat_electronic =
      es.forward_barrier_electronic - es.reverse_barrier_electronic ∧
    es.reaction_heat_zpe_correction =
      es.forward_zpe_correction - es.reverse_zpe_correction ∧
    es.reaction_heat_total =
      es.forward_total_barrier - es.reverse_total_barrier := by
  simp only [process_step, hsurf] at h
  rw [if_neg (by decide : ¬ ("surf" : String) = "ads")] at h
  cases hf : compute_barrier (step.forward.getD emptyDirection) states with
  | error e => rw [hf] at h; exact absurd h (by simp)
  | ok vf =>
    obtain ⟨fel, fzpe, ftot, feq⟩ := vf
    rw [hf] at h
    cases hb : compute_barrier (step.backward.getD emptyDirection) states with
    | error e => rw [hb] at h; exact absurd h (by simp)
    | ok vb =>
      obtain ⟨rel, rzpe, rtot, req⟩ := vb
      rw [hb] at h
      rw [if_pos trivial] at h
      simp only [Except.ok.injEq] at h
      subst h
      exact ⟨rfl, rfl, rfl⟩

/-- C2 witness: the reference `surf` step instantiates the theorem. -/
theorem surf_reaction_heat_is_difference_witness :
    esC3.reaction_heat_electronic =
      esC3.forward_barrier_electronic - esC3.reverse_barrier_electronic ∧
    esC3.reaction_heat_zpe_correction =
      esC3.forward_zpe_correction - esC3.reverse_zpe_correction ∧
    esC3.reaction_heat_total =
      esC3.forward_total_barrier - esC3.reverse_total_barrier :=
  surf_reaction_heat_is_difference stepC3 statesC3 esC3 rfl rfl

/-- C4: an `ads` step that evaluates successfully computed exactly one
direction, by the barrier formula with the `fs` terms in place of `ts`
and the `is` terms kept; its reverse electronic barrier, reverse ZPE
correction and reverse total barrier are 0.0, its reverse equation is
"N/A", and each reaction-heat component equals the corresponding
forward value. -/
theorem ads_step_single_direction (step : StepData)
    (states : List (String × State)) (es : ElementaryStep)
    (hads : step.stepType.getD "surf" = "ads")
    (h : process_step step states = Except.ok es) :
    compute_adsorption_heat step states =
      compute_barrier
        { ts := step.fs, is_ := step.is_, normalization := step.normalization }
        states ∧
    es.reverse_barrier_electronic = 0 ∧
    es.reverse_zpe_correction = 0 ∧
    es.reverse_total_barrier = 0 ∧
    es.reverse_equation = "N/A" ∧
    es.reaction_heat_electronic = es.forward_barrier_electronic ∧
    es.reaction_heat_zpe_correction = es.forward_zpe_correction ∧
    es.reaction_heat_total = es.forward_total_barrier := by
  refine ⟨compute_adsorption_heat_eq_barrier step states, ?_⟩
  simp only [process_step, hads] at h
  rw [if_pos trivial] at h
  cases hf : compute_adsorption_heat step states with
  | error e => rw [hf] at h; exact absurd h (by simp)
  | ok vf =>
    obtain ⟨fel, fzpe, ftot, feq⟩ := vf
    rw [hf] at h
    simp only [Except.ok.injEq] at h
    subst h
    exact ⟨rfl, rfl, rfl, rfl, rfl, rfl, rfl⟩

/-- C4 witness: the adsorption fixture instantiates the theorem. -/
theorem ads_step_single_direction_witness :
    compute_adsorption_heat stepAds statesAds =
      compute_barrier
        { ts := stepAds.fs, is_ := stepAds.is_, normalization := stepAds.normalization }
        statesAds ∧
    esAds.reverse_barrier_electronic = 0 ∧
    esAds.reverse_zpe_correction = 0 ∧
    esAds.reverse_total_barrier = 0 ∧
    esAds.reverse_equation = "N/A" ∧
    esAds.reaction_heat_electronic = esAds.forward_barrier_electronic ∧
    esAds.reaction_heat_zpe_correction = esAds.forward_zpe_correction ∧
    esAds.reaction_heat_total = esAds.forward_total_barrier :=
  ads_step_single_direction stepAds statesAds esAds rfl rfl

/-- The full equation string `_compute_barrier` produces for an empty
direction dict. -/
def emptyDirectionEq : String :=
  "E_el: (0 - (0)) / 1; ZPE corr: (0 - (0)); Total: ((0 - (0)) / 1) + ((0 - (0)))"

/-- C10: an absent `forward` or `backward` block of a `surf` step does
not make evaluation fail: the empty direction dict evaluates to
electronic barrier, ZPE correction and total barrier all 0.0 (with
normalization defaulting to 1), and, provided the present direction
evaluates, a step record is still produced with the missing direction's
three numeric fields equal to 0. -/
theorem missing_direction_block_defaults (step : StepData)
    (states : List (String × State)) :
    compute_barrier emptyDirection states = Except.ok (0, 0, 0, emptyDirectionEq) ∧
    (step.stepType.getD "surf" = "surf" → step.forward = none →
      (∃ v, compute_barrier (step.backward.getD emptyDirection) states = Except.ok v) →
      ∃ es, process_step step states = Except.ok es ∧
        es.forward_barrier_electronic = 0 ∧
        es.forward_zpe_correction = 0 ∧
        es.forward_total_barrier = 0) ∧
    (step.stepType.getD "surf" = "surf" → step.backward = none →
      (∃ v, compute_barrier (step.forward.getD emptyDirection) states = Except.ok v) →
      ∃ es, process_step step states = Except.ok es ∧
        es.reverse_barrier_electronic = 0 ∧
        es.reverse_zpe_correction = 0 ∧
        es.reverse_total_barrier = 0) := by
  have h0 : compute_barrier emptyDirection states =
      Except.ok (0, 0, 0, emptyDirectionEq) := rfl
  refine ⟨h0, ?_, ?_⟩
  · intro hsurf hfwd hb
    obtain ⟨v, hv⟩ := hb
    obtain ⟨rel, rzpe, rtot, req⟩ := v
    have hp : process_step step states = Except.ok
        { name := step.name.getD "unnamed_step"
          step_type := "surf"
          reaction := step.reaction.getD ""
          forward_equation := emptyDirectionEq
          reverse_equation := req
          forward_barrier_electronic := 0
          reverse_barrier_electronic := rel
          forward_zpe_correction := 0
          reverse_zpe_correction := rzpe
          forward_total_barrier := 0
          reverse_total_barrier := rtot
          reaction_heat_electronic := 0 - rel
          reaction_heat_zpe_correction := 0 - rzpe
          reaction_heat_total := 0 - rtot } := by
      simp only [process_step, hsurf]
      rw [if_neg (by decide : ¬ ("surf" : String) = "ads")]
      rw [if_pos trivial]
      simp only [hfwd, Option.getD_none, h0, hv]
    exact ⟨_, hp, rfl, rfl, rfl⟩
  · intro hsurf hbwd hf
    obtain ⟨v, hv⟩ := hf
    obtain ⟨fel, fzpe, ftot, feq⟩ := v
    have hp : process_step step states = Except.ok
        { name := step.name.getD "unnamed_step"
          step_type := "surf"
          reaction := step.reaction.getD ""
          forward_equation := feq
          reverse_equation := emptyDirectionEq
          forward_barrier_electronic := fel
          reverse_barrier_electronic := 0
          forward_zpe_correction := fzpe
          reverse_zpe_correction := 0
          forward_total_barrier := ftot
          reverse_total_barrier := 0
          reaction_heat_electronic := fel - 0
          reaction_heat_zpe_correction := fzpe - 0
          reaction_heat_total := ftot - 0 } := by
      simp only [process_step, hsurf]
      rw [if_neg (by decide : ¬ ("surf" : String) = "ads")]
      rw [if_pos trivial]
      simp only [hbwd, Option.getD_none, h0, hv]
    exact ⟨_, hp, rfl, rfl, rfl⟩

/-- A `surf` step whose `forward` block is absent and whose `backward`
block is the reference backward direction. -/
def stepMissingFwd : StepData :=
  { name := some "mf", stepType := some "surf"
    backward := some
      { ts := [{ name := some "TS" }], is_ := [{ name := some "FS" }]
        normalization := some (.num 2) } }

/-- C10 witness: the fixture with an absent forward block instantiates
the theorem. -/
theorem missing_direction_block_defaults_witness :
    ∃ es, process_step stepMissingFwd statesC3 = Except.ok es ∧
      es.forward_barrier_electronic = 0 ∧
      es.forward_zpe_correction = 0 ∧
      es.forward_total_barrier = 0 :=
  (missing_direction_block_defaults stepMissingFwd statesC3).2.1 rfl rfl ⟨_, rfl⟩

/-- C6: for a step direction, the normalization defaults to 1 when the
key is absent; a non-numeric normalization makes evaluation fail with
the invalid-normalization error even when the term sums are valid; a
zero normalization makes evaluation fail with the zero-normalization
error even when the term sums are valid; and under either failure a
`surf` step produces no step record.  The same holds for the single
direction of an `ads` step. -/
theorem normalization_default_and_failures (d : DirectionData) (step : StepData)
    (states : List (String × State)) (r : String) :
    (compute_barrier { d with normalization := none } states =
      compute_barrier { d with normalization := some (YVal.num 1) } states) ∧
    (d.normalization = some (YVal.nonnum r) →
      (∃ v, sum_energy d.ts states = Except.ok v) →
      (∃ v, sum_energy d.is_ states = Except.ok v) →
      compute_barrier d states =
        Except.error ("Invalid normalization value: " ++ r)) ∧
    (d.normalization = some (YVal.num 0) →
      (∃ v, sum_energy d.ts states = Except.ok v) →
      (∃ v, sum_energy d.is_ states = Except.ok v) →
      compute_barrier d states = Except.error "Normalization cannot be zero") ∧
    (compute_adsorption_heat { step with normalization := none } states =
      compute_adsorption_heat { step with normalization := some (YVal.num 1) } states) ∧
    (step.normalization = some (YVal.nonnum r) →
      (∃ v, sum_energy step.fs states = Except.ok v) →
      (∃ v, sum_energy step.is_ states = Except.ok v) →
      compute_adsorption_heat step states =
        Except.error ("Invalid normalization value: " ++ r)) ∧
    (step.normalization = some (YVal.num 0) →
      (∃ v, sum_energy step.fs states = Except.ok v) →
      (∃ v, sum_energy step.is_ states = Except.ok v) →
      compute_adsorption_heat step states = Except.error "Normalization cannot be zero") ∧
    (step.stepType.getD "surf" = "surf" → step.forward = some d →
      (d.normalization = some (YVal.nonnum r) ∨ d.normalization = some (YVal.num 0)) →
      (∃ v, sum_energy d.ts states = Except.ok v) →
      (∃ v, sum_energy d.is_ states = Except.ok v) →
      ∃ msg, process_step step states = Except.error msg) := by
  have hbarrier : ∀ d2 : DirectionData,
      d2.normalization = some (YVal.nonnum r) →
      (∃ v, sum_energy d2.ts states = Except.ok v) →
      (∃ v, sum_energy d2.is_ states = Except.ok v) →
      compute_barrier d2 states =
        Except.error ("Invalid normalization value: " ++ r) := by
    intro d2 hn h1 h2
    obtain ⟨⟨a1, b1⟩, hv1⟩ := h1
    obtain ⟨⟨a2, b2⟩, hv2⟩ := h2
    simp only [compute_barrier, hv1, hv2, hn, parseNormalization, Option.getD_some,
      YVal.toFloat?, YVal.render]
  have hbarrier0 : ∀ d2 : DirectionData,
      d2.normalization = some (YVal.num 0) →
      (∃ v, sum_energy d2.ts states = Except.ok v) →
      (∃ v, sum_energy d2.is_ states = Except.ok v) →
      compute_barrier d2 states = Except.error "Normalization cannot be zero" := by
    intro d2 hn h1 h2
    obtain ⟨⟨a1, b1⟩, hv1⟩ := h1
    obtain ⟨⟨a2, b2⟩, hv2⟩ := h2
    simp only [compute_barrier, hv1, hv2, hn, parseNormalization, Option.getD_some,
      YVal.toFloat?]
    rw [if_pos trivial]
  refine ⟨rfl, hbarrier d, hbarrier0 d, rfl, ?_, ?_, ?_⟩
  · intro hn h1 h2
    rw [compute_adsorption_heat_eq_barrier]
    exact hbarrier _ hn h1 h2
  · intro hn h1 h2
    rw [compute_adsorption_heat_eq_barrier]
    exact hbarrier0 _ hn h1 h2
  · intro hsurf hfwd hn h1 h2
    have herr : ∃ msg2, compute_barrier d states = Except.error msg2 := by
      cases hn with
      | inl hn => exact ⟨_, hbarrier d hn h1 h2⟩
      | inr hn => exact ⟨_, hbarrier0 d hn h1 h2⟩
    obtain ⟨msg2, hmsg⟩ := herr
    refine ⟨msg2, ?_⟩
    simp only [process_step, hsurf]
    rw [if_neg (by decide : ¬ ("surf" : String) = "ads")]
    simp only [hfwd, Option.getD_some, hmsg]
    rw [if_pos trivial]

/-- Direction fixture with a non-numeric normalization. -/
def dirNonnum : DirectionData := { normalization := some (.nonnum "abc") }

/-- Direction fixture with a zero normalization. -/
def dirZero : DirectionData := { normalization := some (.num 0) }

/-- C6 witness: concrete empty directions instantiate the default, the
non-numeric failure, the zero failure, and the absence of a step
record. -/
theorem normalization_default_and_failures_witness :
    compute_barrier { dirNonnum with normalization := none } [] =
      compute_barrier { dirNonnum with normalization := some (YVal.num 1) } [] ∧
    compute_barrier dirNonnum [] =
      Except.error "Invalid normalization value: abc" ∧
    compute_barrier dirZero [] = Except.error "Normalization cannot be zero" ∧
    (∃ msg, process_step { forward := some dirNonnum } [] = Except.error msg) :=
  ⟨(normalization_default_and_failures dirNonnum {} [] "abc").1,
   (normalization_default_and_failures dirNonnum {} [] "abc").2.1 rfl
     ⟨(0, "0"), rfl⟩ ⟨(0, "0"), rfl⟩,
   (normalization_default_and_failures dirZero {} [] "abc").2.2.1 rfl
     ⟨(0, "0"), rfl⟩ ⟨(0, "0"), rfl⟩,
   (normalization_default_and_failures dirNonnum { forward := some dirNonnum } [] "abc").2.2.2.2.2.2
     rfl rfl (Or.inl rfl) ⟨(0, "0"), rfl⟩ ⟨(0, "0"), rfl⟩⟩

/-- C5: a successfully evaluated path's `total_reaction_energy` is the
sum over its entries of `factor * reaction_heat_total` of the
referenced step (the factor defaulting to 1 when absent), and any
permutation of the entries evaluates successfully to the same
total. -/
theorem path_total_weighted_sum (m : List (String × ElementaryStep))
    (pn : String) (entries : List PathStep) (p : ReactionPath)
    (h : evaluate_path m pn entries = Except.ok p) :
    p.total_reaction_energy = (entries.map (path_term_value m)).sum ∧
    ∀ entries2, entries.Perm entries2 →
      evaluate_path m pn entries2 = Except.ok p := by
  cases he : evaluate_path_steps m pn entries 0 with
  | error e =>
    simp only [evaluate_path, he] at h
    exact Except.noConfusion h
  | ok t =>
    simp only [evaluate_path, he, Except.ok.injEq] at h
    subst h
    have hts := evaluate_path_steps_sum m pn entries 0 t he
    constructor
    · simpa using hts
    · intro entries2 hperm
      have hall := evaluate_path_steps_all_ok m pn entries 0 t he
      have hall2 : ∀ ps ∈ entries2, ∃ q, path_step_contrib m pn ps = Except.ok q :=
        fun ps hps => hall ps (hperm.mem_iff.mpr hps)
      obtain ⟨t2, ht2⟩ := evaluate_path_steps_ok_of_all m pn entries2 hall2 0
      have hts2 := evaluate_path_steps_sum m pn entries2 0 t2 ht2
      have hsum : (entries.map (path_term_value m)).sum =
          (entries2.map (path_term_value m)).sum :=
        (hperm.map (path_term_value m)).sum_eq
      have ht2t : t2 = t := by
        rw [hts2, hts, hsum]
      subst ht2t
      simp only [evaluate_path, ht2]

/-- C5 witness: a two-entry path over the reference step evaluates, in
either entry order, to three times the step's reaction heat. -/
theorem path_total_weighted_sum_witness :
    evaluate_path [("s1", esC3)] "p"
      [{ name := some "s1" }, { name := some "s1", factor := some (.num 2) }] =
      Except.ok ⟨"p", -174352779 / 3125000000⟩ :=
  (path_total_weighted_sum [("s1", esC3)] "p"
      [{ name := some "s1", factor := some (.num 2) }, { name := some "s1" }]
      ⟨"p", -174352779 / 3125000000⟩ (by decide)).2
    ([{ name := some "s1" }, { name := some "s1", factor := some (.num 2) }] : List PathStep)
    (List.Perm.swap ({ name := some "s1" } : PathStep)
      ({ name := some "s1", factor := some (.num 2) } : PathStep) [])

/-- C7: if any term of a list handed to `_sum_energy` or `_sum_zpe`
references a state name missing from the loaded state map, the
evaluation fails (no numeric result), and when the terms before the
offending one are themselves valid the failure is the validation error
naming that state. -/
theorem unknown_state_name_fails (terms : List Term)
    (states : List (String × State)) (nv : ℚ) :
    ((∃ t ∈ terms, findState states t.name = none) →
      (∃ e, sum_energy terms states = Except.error e) ∧
      (∃ e, sum_zpe terms states nv = Except.error e)) ∧
    (∀ (pre : List Term) (t : Term) (post : List Term),
      terms = pre ++ t :: post →
      (∀ u ∈ pre, termOk states u) →
      findState states t.name = none →
      sum_energy terms states =
        Except.error ("Unknown state '" ++ optNameStr t.name ++
          "' referenced in network step") ∧
      sum_zpe terms states nv =
        Except.error ("Unknown state '" ++ optNameStr t.name ++
          "' referenced in network step")) := by
  constructor
  · intro h
    have hne : terms ≠ [] := by
      obtain ⟨t, ht, _⟩ := h
      intro hnil
      subst hnil
      simp at ht
    obtain ⟨e1, he1⟩ := sum_energy_terms_unknown_fails states terms h
    obtain ⟨e2, he2⟩ := sum_zpe_terms_unknown_fails states nv terms h
    exact ⟨⟨e1, sum_energy_error_of_terms_error terms states e1 hne he1⟩,
           ⟨e2, sum_zpe_error_of_terms_error terms states nv e2 hne he2⟩⟩
  · intro pre t post heq hall hf
    subst heq
    have hne : pre ++ t :: post ≠ [] := by simp
    constructor
    · exact sum_energy_error_of_terms_error _ states _ hne
        (sum_energy_terms_first_unknown states pre t post hall hf)
    · exact sum_zpe_error_of_terms_error _ states nv _ hne
        (sum_zpe_terms_first_unknown states nv pre t post hall hf)

/-- A term list referencing a name absent from the fixture state map. -/
def ghostTerms : List Term := [{ name := some "GHOST" }]

/-- C7 witness: a reference to the undeclared state `GHOST` makes both
aggregators fail with the error naming it. -/
theorem unknown_state_name_fails_witness :
    (∃ e, sum_energy ghostTerms statesMix = Except.error e) ∧
    (∃ e, sum_zpe ghostTerms statesMix 1 = Except.error e) ∧
    sum_energy ghostTerms statesMix =
      Except.error "Unknown state 'GHOST' referenced in network step" ∧
    sum_zpe ghostTerms statesMix 1 =
      Except.error "Unknown state 'GHOST' referenced in network step" := by
  have h1 := (unknown_state_name_fails ghostTerms statesMix 1).1
    ⟨{ name := some "GHOST" }, by decide, by decide⟩
  have h2 := (unknown_state_name_fails ghostTerms statesMix 1).2
    [] { name := some "GHOST" } [] rfl (by simp) (by decide)
  have hs : ("Unknown state '" ++ optNameStr (some "GHOST") ++
      "' referenced in network step") =
      "Unknown state 'GHOST' referenced in network step" := by decide
  rw [hs] at h2
  exact ⟨h1.1, h1.2, h2.1, h2.2⟩

/-- C9: `_resolve_state_file` tries the literal joined path, then the
path with a `.yaml` suffix, then with a `.yml` suffix, in that order,
returning the first existing candidate, and fails with the not-found
error when none of the three exists. -/
theorem resolve_state_file_order (fsys : String → Bool) (baseDir stateFile : String) :
    (fsys (baseDir ++ "/" ++ stateFile) = true →
      resolve_state_file fsys baseDir stateFile =
        Except.ok (baseDir ++ "/" ++ stateFile)) ∧
    (fsys (baseDir ++ "/" ++ stateFile) = false →
      fsys (withSuffix (baseDir ++ "/" ++ stateFile) ".yaml") = true →
      resolve_state_file fsys baseDir stateFile =
        Except.ok (withSuffix (baseDir ++ "/" ++ stateFile) ".yaml")) ∧
    (fsys (baseDir ++ "/" ++ stateFile) = false →
      fsys (withSuffix (baseDir ++ "/" ++ stateFile) ".yaml") = false →
      fsys (withSuffix (baseDir ++ "/" ++ stateFile) ".yml") = true →
      resolve_state_file fsys baseDir stateFile =
        Except.ok (withSuffix (baseDir ++ "/" ++ stateFile) ".yml")) ∧
    (fsys (baseDir ++ "/" ++ stateFile) = false →
      fsys (withSuffix (baseDir ++ "/" ++ stateFile) ".yaml") = false →
      fsys (withSuffix (baseDir ++ "/" ++ stateFile) ".yml") = false →
      resolve_state_file fsys baseDir stateFile =
        Except.error ("State file not found: " ++ stateFile)) := by
  refine ⟨?_, ?_, ?_, ?_⟩
  · intro h1
    simp [resolve_state_file, h1]
  · intro h1 h2
    simp [resolve_state_file, h1, h2]
  · intro h1 h2 h3
    simp [resolve_state_file, h1, h2, h3]
  · intro h1 h2 h3
    simp [resolve_state_file, h1, h2, h3]

/-- C9 witness: with only `/base/st.yaml` on disk, the reference `st`
resolves to the `.yaml` candidate. -/
theorem resolve_state_file_order_witness :
    resolve_state_file (fun s => s == "/base/st.yaml") "/base" "st" =
      Except.ok "/base/st.yaml" := by
  have h := (resolve_state_file_order (fun s => s == "/base/st.yaml") "/base" "st").2.1
    (by decide) (by decide)
  have e : withSuffix ("/base" ++ "/" ++ "st") ".yaml" = "/base/st.yaml" := by decide
  rw [e] at h
  exact h

end Pymkmkit
